import Mathlib

/-!
Verification development for the AI-Chat-Assistant repository.

Shallow embedding of:
 - the streaming execution engine
   (`app/langgraph_graph.py`, `process_user_message_with_context_streaming`)
   and the SSE transport adapter (`app/main.py`, `sse_streamer`);
 - the supervisor routing step (`app/langgraph_graph.py`, `supervisor_node`);
 - the buffered persistence layer (`app/persistence.py`, `ChatPersistence`);
 - the caches (`app/cache.py`, `EmbeddingCache`, `UserStatsCache`).
-/

namespace AIChat

/-! ## Streaming execution engine (`process_user_message_with_context_streaming`) -/

/-- A low-level event delivered by `graph.astream_events`.  The engine only
inspects the event type, the chunk content (for `on_chat_model_stream`) and the
tool name (for `on_tool_start`), so the embedding records exactly those.  A
chunk with no `content` attribute or an event of any other type is `otherEvent`
(the engine yields nothing for it). -/
inductive LowEvent where
  | chatStream (content : String)
  | toolStart (name : String)
  | otherEvent
deriving DecidableEq, Repr

/-- The dictionaries yielded by the streaming generator, tagged by their
`"type"` field.  The code emits tool starts with tag `"intent"`. -/
inductive StreamEvent where
  | token (content : String)
  | intent (content : String)
  | cancelled
  | error (msg : String)
  | done
deriving DecidableEq, Repr

/-- Events the engine yields while processing one low-level event,
mirroring the `if event_type == "on_chat_model_stream" ... elif
event_type == "on_tool_start" ...` body: a token only for non-empty chunk
content, an intent only for a non-empty tool name outside
`["_Exception", "LangGraph"]`. -/
def emitFor : LowEvent → List StreamEvent
  | LowEvent.chatStream c => if c = "" then [] else [StreamEvent.token c]
  | LowEvent.toolStart n =>
      if n ≠ "" ∧ n ≠ "_Exception" ∧ n ≠ "LangGraph" then [StreamEvent.intent n] else []
  | LowEvent.otherEvent => []

/-- The `async for` loop of the streaming generator.  `cancel i` is the value
`cancel_flag.is_set()` reads at the check preceding the `i`-th incoming event;
if set, the generator yields `cancelled` and returns.  When the incoming
stream is exhausted, `raisedMsg = some m` models `graph.astream_events`
having raised an exception (caught by the `except` clause, which yields
`error m`); the trailing `done` is yielded unconditionally after the
`try`/`except` block. -/
def engineLoop (cancel : Nat → Bool) (raisedMsg : Option String) :
    List LowEvent → Nat → List StreamEvent
  | [], _ =>
      (match raisedMsg with
        | some m => [StreamEvent.error m]
        | none => []) ++ [StreamEvent.done]
  | e :: rest, i =>
      if cancel i then [StreamEvent.cancelled]
      else emitFor e ++ engineLoop cancel raisedMsg rest (i + 1)

/-- `process_user_message_with_context_streaming`, as the full sequence of
events the generator would yield if drained: `events` is the prefix of
low-level events `astream_events` delivers before finishing normally
(`raisedMsg = none`) or raising (`raisedMsg = some m`). -/
def engineRun (events : List LowEvent) (raisedMsg : Option String)
    (cancel : Nat → Bool) : List StreamEvent :=
  engineLoop cancel raisedMsg events 0

/-- Terminal stream events, exactly the list `["done", "cancelled", "error"]`
tested in `sse_streamer`. -/
def isTerminal : StreamEvent → Bool
  | StreamEvent.cancelled => true
  | StreamEvent.error _ => true
  | StreamEvent.done => true
  | _ => false

/-- `sse_streamer` (`app/main.py`): forwards each chunk to the transport and
`break`s immediately after forwarding a terminal one, so the events actually
consumed from the generator and delivered to the transport are the prefix up
to and including the first terminal event.  (The JSON/SSE text formatting is
a bijective re-encoding and is not modelled.) -/
def sse_streamer : List StreamEvent → List StreamEvent
  | [] => []
  | e :: rest => if isTerminal e then [e] else e :: sse_streamer rest

theorem emitFor_not_terminal (e : LowEvent) :
    ∀ s ∈ emitFor e, isTerminal s = false := by
  cases e with
  | chatStream c =>
      by_cases hc : c = "" <;> simp [emitFor, hc, isTerminal]
  | toolStart n =>
      by_cases hn : n ≠ "" ∧ n ≠ "_Exception" ∧ n ≠ "LangGraph" <;>
        simp [emitFor, hn, isTerminal]
  | otherEvent => simp [emitFor]

theorem engineLoop_any_terminal (cancel : Nat → Bool) (raisedMsg : Option String)
    (events : List LowEvent) (i : Nat) :
    (engineLoop cancel raisedMsg events i).any isTerminal = true := by
  induction events generalizing i with
  | nil =>
      cases raisedMsg <;> simp [engineLoop, isTerminal]
  | cons e rest ih =>
      by_cases hc : cancel i
      · simp [engineLoop, hc, isTerminal]
      · simp only [engineLoop, hc, if_neg, Bool.false_eq_true, not_false_iff,
          List.any_append]
        simp [ih (i + 1)]

theorem sse_streamer_shape (l : List StreamEvent) (h : l.any isTerminal = true) :
    ∃ pre t, sse_streamer l = pre ++ [t] ∧ isTerminal t = true ∧
      ∀ s ∈ pre, isTerminal s = false := by
  induction l with
  | nil => simp at h
  | cons e rest ih =>
      by_cases he : isTerminal e
      · exact ⟨[], e, by simp [sse_streamer, he], he, by simp⟩
      · have hrest : rest.any isTerminal = true := by
          simp only [List.any_cons, he, Bool.false_or] at h
          exact h
        obtain ⟨pre, t, heq, ht, hpre⟩ := ih hrest
        refine ⟨e :: pre, t, ?_, ht, ?_⟩
        · simp [sse_streamer, he, heq]
        · intro s hs
          rcases List.mem_cons.mp hs with hs | hs
          · simpa [hs] using (by simpa using he : isTerminal e = false)
          · exact hpre s hs

/-- **C1.** For every turn processed by the streaming execution path —
whatever low-level events arrive, whether the underlying graph raises, and
however the cancellation flag behaves — the sequence of events delivered to
the transport layer by `sse_streamer` contains exactly one terminal event
(`done`, `cancelled` or `error`), every event before it is non-terminal, and
nothing at all (in particular no `token` or `intent`/toolStarted event)
follows it. -/
theorem one_terminal_event_per_turn (events : List LowEvent)
    (raisedMsg : Option String) (cancel : Nat → Bool) :
    ∃ pre t, sse_streamer (engineRun events raisedMsg cancel) = pre ++ [t] ∧
      isTerminal t = true ∧ (∀ s ∈ pre, isTerminal s = false) ∧
      (sse_streamer (engineRun events raisedMsg cancel)).countP
        (fun s => isTerminal s) = 1 := by
  obtain ⟨pre, t, heq, ht, hpre⟩ :=
    sse_streamer_shape (engineRun events raisedMsg cancel)
      (by simpa [engineRun] using engineLoop_any_terminal cancel raisedMsg events 0)
  refine ⟨pre, t, heq, ht, hpre, ?_⟩
  rw [heq, List.countP_append]
  have hzero : pre.countP (fun s => isTerminal s) = 0 := by
    rw [List.countP_eq_zero]
    intro s hs
    simp [hpre s hs]
  simp [hzero, List.countP_cons, ht]

/-- Witness instantiating C1 at a concrete run: one token, one tool start,
then the graph raises; the transport receives exactly one terminal event. -/
theorem one_terminal_event_per_turn_witness :
    (sse_streamer (engineRun
      [LowEvent.chatStream "Hi", LowEvent.toolStart "book_meeting"]
      (some "boom") (fun _ => false))).countP
        (fun s => isTerminal s) = 1 := by
  obtain ⟨pre, t, heq, ht, hpre, hcount⟩ := one_terminal_event_per_turn
    [LowEvent.chatStream "Hi", LowEvent.toolStart "book_meeting"]
    (some "boom") (fun _ => false)
  exact hcount

theorem engineLoop_cancel_shift (cancel : Nat → Bool) (raisedMsg : Option String)
    (e : LowEvent) (post : List LowEvent) :
    ∀ (pre : List LowEvent) (i : Nat),
      (∀ k, k < pre.length → cancel (i + k) = false) →
      cancel (i + pre.length) = true →
      engineLoop cancel raisedMsg (pre ++ e :: post) i =
        (pre.map emitFor).flatten ++ [StreamEvent.cancelled] := by
  intro pre
  induction pre with
  | nil =>
      intro i _ hset
      simp only [Nat.add_zero, List.length_nil] at hset
      simp [engineLoop, hset]
  | cons p rest ih =>
      intro i hbefore hset
      have hp : cancel i = false := by
        have := hbefore 0 (by simp)
        simpa using this
      have hrest : ∀ k, k < rest.length → cancel (i + 1 + k) = false := by
        intro k hk
        have := hbefore (k + 1) (by simpa using Nat.succ_lt_succ hk)
        simpa [Nat.add_comm, Nat.add_assoc, Nat.add_left_comm] using this
      have hset2 : cancel (i + 1 + rest.length) = true := by
        have : i + (rest.length + 1) = i + 1 + rest.length := by omega
        simpa [List.length_cons, this] using hset
      simp only [List.cons_append, engineLoop, hp, Bool.false_eq_true,
        if_neg, not_false_iff, List.map_cons, List.flatten, List.append_eq]
      rw [ih (i + 1) hrest hset2]
      simp [List.append_assoc]

theorem sse_streamer_nonterminal_prefix (l : List StreamEvent) (t : StreamEvent)
    (hl : ∀ s ∈ l, isTerminal s = false) (ht : isTerminal t = true) :
    sse_streamer (l ++ [t]) = l ++ [t] := by
  induction l with
  | nil => simp [sse_streamer, ht]
  | cons e rest ih =>
      have he : isTerminal e = false := hl e (by simp)
      have hrest : ∀ s ∈ rest, isTerminal s = false := fun s hs => hl s (by simp [hs])
      simp [sse_streamer, he, ih hrest]

/-- **C2.** If the cancellation flag is first observed set at the check
preceding some incoming low-level event (`cancel` reads false at every
earlier check and true at check number `pre.length`, before event `e`), then
the engine's output is exactly the events produced for the already-processed
prefix followed by `cancelled`: the next emitted event is `cancelled`, no
further `token` (or any other) event follows, and the transport layer
receives that same sequence. -/
theorem cancel_before_next_event (pre post : List LowEvent) (e : LowEvent)
    (raisedMsg : Option String) (cancel : Nat → Bool)
    (hbefore : ∀ k, k < pre.length → cancel k = false)
    (hset : cancel pre.length = true) :
    engineRun (pre ++ e :: post) raisedMsg cancel =
      (pre.map emitFor).flatten ++ [StreamEvent.cancelled] ∧
    sse_streamer (engineRun (pre ++ e :: post) raisedMsg cancel) =
      (pre.map emitFor).flatten ++ [StreamEvent.cancelled] := by
  have h1 : engineRun (pre ++ e :: post) raisedMsg cancel =
      (pre.map emitFor).flatten ++ [StreamEvent.cancelled] := by
    have := engineLoop_cancel_shift cancel raisedMsg e post pre 0
      (by simpa using hbefore) (by simpa using hset)
    simpa [engineRun] using this
  refine ⟨h1, ?_⟩
  rw [h1]
  apply sse_streamer_nonterminal_prefix
  · intro s hs
    rw [List.mem_flatten] at hs
    obtain ⟨l, hl, hsl⟩ := hs
    rw [List.mem_map] at hl
    obtain ⟨ev, _, rfl⟩ := hl
    exact emitFor_not_terminal ev s hsl
  · rfl

/-- Witness for C2 at a concrete run: one token event is processed, the flag
is set before the second event, and the transport receives exactly the token
followed by `cancelled`. -/
theorem cancel_before_next_event_witness :
    sse_streamer (engineRun [LowEvent.chatStream "Hel", LowEvent.chatStream "lo"]
        none (fun k => decide (1 ≤ k))) =
      [StreamEvent.token "Hel", StreamEvent.cancelled] := by
  have h2 := (cancel_before_next_event [LowEvent.chatStream "Hel"] []
    (LowEvent.chatStream "lo") none (fun k => decide (1 ≤ k))
    (by decide) (by decide)).2
  simp only [List.singleton_append] at h2
  rw [h2]
  decide

/-! ## Supervisor routing step (`supervisor_node` in `app/langgraph_graph.py`) -/

/-- Python's `"pat" in content` substring test, on the character list:
`pat` occurs as a contiguous run somewhere in the haystack. -/
def listContainsSub (pat : List Char) : List Char → Bool
  | [] => pat.isEmpty
  | c :: rest => pat.isPrefixOf (c :: rest) || listContainsSub pat rest

/-- Python's `"pat" in content` substring test on strings. -/
def strContains (content pat : String) : Bool :=
  listContainsSub pat.toList content.toList

/-- Python's `str.strip()`: remove leading and trailing whitespace. -/
def pyStrip (s : String) : String :=
  String.mk
    (((s.toList.dropWhile Char.isWhitespace).reverse.dropWhile
      Char.isWhitespace).reverse)

/-- The closed set of routing decisions (`RouteResponse.next` is
`Literal["BookingAgent", "SupportAgent", "FINISH"]`). -/
inductive Route where
  | BookingAgent
  | SupportAgent
  | FINISH
deriving DecidableEq, Repr

/-- The fallback text analysis in `supervisor_node`:
`if "BookingAgent" in content ... elif "SupportAgent" in content ... else
FINISH`. -/
def routeFromText (content : String) : Route :=
  if strContains content "BookingAgent" then Route.BookingAgent
  else if strContains content "SupportAgent" then Route.SupportAgent
  else Route.FINISH

/-- The routing decision of `supervisor_node`.  `structured` is the outcome of
`llm.with_structured_output(RouteResponse).invoke(...)` inside the `try`
(`some r` on success, `none` when it raises, which is caught).  `fallback` is
the outcome of the plain `llm.invoke(...)` in the `except` branch: `Except.ok
text` when it returns a response whose `content.strip()` is modelled by `pyStrip`, `Except.error e` when that call itself raises — that exception is not
caught inside `supervisor_node` and propagates to the caller. -/
def supervisor_node (structured : Option Route) (fallback : Except String String) :
    Except String Route :=
  match structured with
  | some r => Except.ok r
  | none =>
      match fallback with
      | Except.error e => Except.error e
      | Except.ok respText => Except.ok (routeFromText (pyStrip respText))

/-- **C6 counterexample.** When the structured decision fails *and* the
free-text fallback request itself raises (a full decision-service outage),
`supervisor_node` propagates the exception instead of producing any decision:
the fallback does not protect the turn, contradicting "this fallback never
crashes the turn" and leaving no decision from the closed set. -/
theorem supervisor_fallback_raises_counterexample :
    supervisor_node none (Except.error "connection error") =
      Except.error "connection error" := by
  rfl

/-- **C6 (amended).** If the structured decision request fails and the
free-text fallback request *returns text*, then `supervisor_node` never
raises: it pattern-matches the stripped text against the display names
`"BookingAgent"` and `"SupportAgent"`, defaults to `FINISH` when neither
matches, and the resulting decision is always one of the closed set
`{BookingAgent, SupportAgent, FINISH}`.  (Only when the fallback request
itself raises does the exception propagate out of the supervisor step.) -/
theorem supervisor_fallback_routes (t : String) :
    supervisor_node none (Except.ok t) = Except.ok (routeFromText (pyStrip t)) ∧
    (routeFromText (pyStrip t) = Route.BookingAgent ∨
      routeFromText (pyStrip t) = Route.SupportAgent ∨
      routeFromText (pyStrip t) = Route.FINISH) ∧
    (strContains (pyStrip t) "BookingAgent" = false →
      strContains (pyStrip t) "SupportAgent" = false →
      supervisor_node none (Except.ok t) = Except.ok Route.FINISH) := by
  refine ⟨rfl, ?_, ?_⟩
  · cases h : routeFromText (pyStrip t) <;> simp
  · intro h1 h2
    simp [supervisor_node, routeFromText, h1, h2]

/-- Witness for the amended C6: unparseable fallback text routes to FINISH. -/
theorem supervisor_fallback_routes_witness :
    supervisor_node none (Except.ok "I cannot decide") = Except.ok Route.FINISH :=
  (supervisor_fallback_routes "I cannot decide").2.2 (by decide) (by decide)

/-! ## Association-list model of Python dicts

Python 3.7+ dicts preserve insertion order; assignment to an existing key
keeps its position; `next(iter(d))` is the first (oldest-inserted) key.
The model is a key-value list in insertion order. -/

/-- `d[k]` / `d.get(k)`. -/
def alookup {α : Type} : List (String × α) → String → Option α
  | [], _ => none
  | (k1, v) :: rest, k => if k1 = k then some v else alookup rest k

/-- `del d[k]` / `d.pop(k, None)`: remove the key. -/
def aerase {α : Type} (l : List (String × α)) (k : String) : List (String × α) :=
  l.filter (fun p => decide (p.1 ≠ k))

/-- `d[k] = v`: overwrite in place if present, else append (newest). -/
def ainsert {α : Type} : List (String × α) → String → α → List (String × α)
  | [], k, v => [(k, v)]
  | (k1, v1) :: rest, k, v =>
      if k1 = k then (k1, v) :: rest else (k1, v1) :: ainsert rest k v

theorem alookup_ainsert_self {α : Type} (l : List (String × α)) (k : String) (v : α) :
    alookup (ainsert l k v) k = some v := by
  induction l with
  | nil => simp [ainsert, alookup]
  | cons p rest ih =>
      by_cases h : p.1 = k
      · simp [ainsert, h, alookup]
      · simp [ainsert, h, alookup, ih]

theorem alookup_ainsert_ne {α : Type} (l : List (String × α)) (k k1 : String) (v : α)
    (h : k ≠ k1) : alookup (ainsert l k v) k1 = alookup l k1 := by
  induction l with
  | nil => simp [ainsert, alookup, h]
  | cons p rest ih =>
      by_cases hp : p.1 = k
      · simp [ainsert, hp, alookup, h]
      · simp [ainsert, hp, alookup, ih]

theorem alookup_aerase_self {α : Type} (l : List (String × α)) (k : String) :
    alookup (aerase l k) k = none := by
  induction l with
  | nil => simp [aerase, alookup]
  | cons p rest ih =>
      by_cases hp : p.1 = k
      · simpa [aerase, hp] using ih
      · simpa [aerase, hp, alookup] using ih

theorem alookup_aerase_ne {α : Type} (l : List (String × α)) (k k1 : String)
    (h : k ≠ k1) : alookup (aerase l k) k1 = alookup l k1 := by
  induction l with
  | nil => simp [aerase, alookup]
  | cons p rest ih =>
      by_cases hp : p.1 = k
      · have hp1 : ¬ p.1 = k1 := by rw [hp]; exact h
        rw [show aerase (p :: rest) k = aerase rest k by
          simp [aerase, List.filter_cons, hp]]
        rw [show alookup (p :: rest) k1 = alookup rest k1 by
          simp [alookup, hp1]]
        exact ih
      · rw [show aerase (p :: rest) k = p :: aerase rest k by
          simp [aerase, List.filter_cons, hp]]
        by_cases hk1 : p.1 = k1
        · simp [alookup, hk1]
        · simp [alookup, hk1, ih]

theorem alookup_aerase_none {α : Type} (l : List (String × α)) (k k1 : String)
    (h : alookup l k1 = none) : alookup (aerase l k) k1 = none := by
  by_cases hk : k = k1
  · rw [hk]; exact alookup_aerase_self l k1
  · rw [alookup_aerase_ne l k k1 hk]; exact h

theorem alookup_mem {α : Type} (l : List (String × α)) (k : String) (v : α)
    (h : alookup l k = some v) : (k, v) ∈ l := by
  induction l with
  | nil => simp [alookup] at h
  | cons p rest ih =>
      obtain ⟨k2, v2⟩ := p
      by_cases hp : k2 = k
      · simp only [alookup, hp, if_true] at h
        have hv : v2 = v := by injection h
        rw [← hp, ← hv]
        exact List.mem_cons_self _ _
      · simp only [alookup, hp, if_neg, not_false_iff] at h
        exact List.mem_cons_of_mem _ (ih h)

theorem ainsert_length_le {α : Type} (l : List (String × α)) (k : String) (v : α) :
    (ainsert l k v).length ≤ l.length + 1 := by
  induction l with
  | nil => simp [ainsert]
  | cons p rest ih =>
      by_cases hp : p.1 = k
      · simp [ainsert, hp]
      · simpa [ainsert, hp] using Nat.succ_le_succ ih

/-! ## `EmbeddingCache` (`app/cache.py`) -/

/-- `_hash_text`: the MD5 hex digest keying the cache.  MD5 is modelled as an
injective key function (the identity); every claim depends only on the keys,
never on the digest's representation. -/
def hash_text (text : String) : String := text

/-- `EmbeddingCache`: insertion-ordered dict from hashed text to embedding
vector, plus hit/miss counters.  The numeric contents of an embedding vector
are opaque to every claim and are modelled as integers. -/
structure EmbeddingCache where
  max_size : Nat
  cache : List (String × List Int)
  hits : Nat
  misses : Nat
deriving DecidableEq, Repr

/-- The freshly constructed cache (`EmbeddingCache(max_size=...)`). -/
def EmbeddingCache.empty (max_size : Nat) : EmbeddingCache :=
  { max_size := max_size, cache := [], hits := 0, misses := 0 }

/-- `EmbeddingCache.get`: returns the cached vector and the cache with its
hit/miss counters updated. -/
def EmbeddingCache.get (c : EmbeddingCache) (text : String) :
    Option (List Int) × EmbeddingCache :=
  match alookup c.cache (hash_text text) with
  | some v => (some v, { c with hits := c.hits + 1 })
  | none => (none, { c with misses := c.misses + 1 })

/-- `EmbeddingCache.set`: `if len(self._cache) >= self.max_size:
self._cache.pop(next(iter(self._cache)))` — drop the oldest-inserted entry —
then `self._cache[key] = embedding`.  (With `max_size = 0` and an empty dict
the Python `next(iter(...))` would raise; the capacity claims therefore
assume `max_size ≥ 1`, which the configuration guarantees.) -/
def EmbeddingCache.set (c : EmbeddingCache) (text : String) (emb : List Int) :
    EmbeddingCache :=
  let cache1 := if c.max_size ≤ c.cache.length then c.cache.tail else c.cache
  { c with cache := ainsert cache1 (hash_text text) emb }

/-- A get/set operation on the embedding cache. -/
inductive EOp where
  | eget (text : String)
  | eset (text : String) (emb : List Int)

/-- Run a sequence of get/set operations. -/
def applyEOps : EmbeddingCache → List EOp → EmbeddingCache
  | c, [] => c
  | c, EOp.eget t :: rest => applyEOps (c.get t).2 rest
  | c, EOp.eset t v :: rest => applyEOps (c.set t v) rest

theorem eget_preserves_cache (c : EmbeddingCache) (t : String) :
    (c.get t).2.cache = c.cache ∧ (c.get t).2.max_size = c.max_size := by
  unfold EmbeddingCache.get
  cases alookup c.cache (hash_text t) <;> simp

theorem eset_length_le (c : EmbeddingCache) (t : String) (v : List Int)
    (hm : 1 ≤ c.max_size) (hlen : c.cache.length ≤ c.max_size) :
    (c.set t v).cache.length ≤ c.max_size := by
  unfold EmbeddingCache.set
  by_cases h : c.max_size ≤ c.cache.length
  · simp only [if_pos h]
    have htail : c.cache.tail.length + 1 = c.max_size := by
      rw [List.length_tail, Nat.le_antisymm hlen h]
      exact Nat.succ_pred_eq_of_pos hm
    exact htail ▸ ainsert_length_le _ _ _
  · simp only [if_neg h]
    exact Nat.le_trans (ainsert_length_le _ _ _) (Nat.lt_of_not_le h)

theorem eset_max_size (c : EmbeddingCache) (t : String) (v : List Int) :
    (c.set t v).max_size = c.max_size := rfl

theorem applyEOps_length_le (ops : List EOp) :
    ∀ c : EmbeddingCache, 1 ≤ c.max_size → c.cache.length ≤ c.max_size →
      (applyEOps c ops).cache.length ≤ c.max_size ∧
      (applyEOps c ops).max_size = c.max_size := by
  induction ops with
  | nil => intro c _ hlen; exact ⟨hlen, rfl⟩
  | cons op rest ih =>
      intro c hm hlen
      cases op with
      | eget t =>
          have hg := eget_preserves_cache c t
          have := ih (c.get t).2 (by rw [hg.2]; exact hm) (by rw [hg.1, hg.2]; exact hlen)
          exact ⟨by rw [← hg.2]; exact (hg.2 ▸ this.1), by rw [applyEOps, this.2, hg.2]⟩
      | eset t v =>
          have hs := eset_length_le c t v hm hlen
          have hmax : (c.set t v).max_size = c.max_size := rfl
          have := ih (c.set t v) (by rw [hmax]; exact hm) (by rw [hmax]; exact hs)
          exact ⟨by rw [applyEOps, ← hmax]; exact (hmax ▸ this.1),
                 by rw [applyEOps, this.2, hmax]⟩

/-- **C7.** The embedding cache behaves as claimed: (i) the first `get` of
any text on a fresh cache is a miss; (ii) immediately after `set(T, V)`,
`get(T)` returns exactly `V`; (iii) when an insertion occurs at capacity the
least-recently-inserted (oldest, first-position) entry is dropped before
inserting — in particular a key held only by the oldest entry is no longer
present afterwards; (iv) starting from a fresh cache of capacity
`m ≥ 1`, no sequence of get/set operations ever makes the stored-entry count
exceed `m`. -/
theorem embedding_cache_correct (m : Nat) (c : EmbeddingCache) (T : String)
    (V : List Int) (ops : List EOp) (hm : 1 ≤ m) :
    ((EmbeddingCache.empty m).get T).1 = none ∧
    ((c.set T V).get T).1 = some V ∧
    (c.max_size ≤ c.cache.length →
      (c.set T V).cache = ainsert c.cache.tail (hash_text T) V) ∧
    (∀ k0 v0 rest, c.cache = (k0, v0) :: rest → c.max_size ≤ c.cache.length →
      hash_text T ≠ k0 → alookup rest k0 = none →
      alookup (c.set T V).cache k0 = none) ∧
    (applyEOps (EmbeddingCache.empty m) ops).cache.length ≤ m := by
  refine ⟨rfl, ?_, ?_, ?_, ?_⟩
  · unfold EmbeddingCache.get
    rw [show (c.set T V).cache = ainsert (if c.max_size ≤ c.cache.length
        then c.cache.tail else c.cache) (hash_text T) V from rfl]
    rw [alookup_ainsert_self]
  · intro h
    unfold EmbeddingCache.set
    rw [if_pos h]
  · intro k0 v0 rest hc h hk h0
    unfold EmbeddingCache.set
    rw [if_pos h, hc]
    simp only [List.tail_cons]
    rw [alookup_ainsert_ne rest (hash_text T) k0 V hk]
    exact h0
  · exact (applyEOps_length_le ops (EmbeddingCache.empty m) hm (by simp [EmbeddingCache.empty])).1

/-- Witness for C7 at concrete values: a fresh capacity-2 cache misses;
set-then-get returns the value; filling a full cache evicts the oldest key
`"a"`; a concrete operation sequence never exceeds capacity 2. -/
theorem embedding_cache_correct_witness :
    (((EmbeddingCache.empty 2).get "x").1 = none) ∧
    alookup ((EmbeddingCache.mk 2 [("a", [1]), ("b", [2])] 0 0).set "c" [3]).cache
      "a" = none ∧
    (applyEOps (EmbeddingCache.empty 2)
      [EOp.eset "p" [1], EOp.eset "q" [2], EOp.eset "r" [3],
       EOp.eget "q"]).cache.length ≤ 2 := by
  have h := embedding_cache_correct 2 (EmbeddingCache.mk 2 [("a", [1]), ("b", [2])] 0 0)
    "c" [3] [EOp.eset "p" [1], EOp.eset "q" [2], EOp.eset "r" [3], EOp.eget "q"]
    (by decide)
  exact ⟨h.1, h.2.2.2.1 "a" [1] [("b", [2])] rfl (by decide) (by decide) (by decide),
    h.2.2.2.2⟩



/-! ## `ChatPersistence` (`app/persistence.py`) -/

/-- One buffered row (`data_row` in `store_conversation`), matching the
Milvus collection schema fields. -/
structure DataRow where
  user_name : String
  user_id : String
  session_id : String
  timestamp : String
  user_message : String
  bot_response : String
  embedding : List Int
  intent : String
deriving DecidableEq, Repr

/-- `self.BATCH_SIZE = 5`. -/
def BATCH_SIZE : Nat := 5

/-- The mutable state of a `ChatPersistence` instance.  `client` is whether
`self.client` is non-`None`; `storage` is the durable Milvus collection
contents (rows inserted so far).  `BUFFER_TTL` comes from the external
configuration. -/
structure ChatPersistence where
  client : Bool
  collection_loaded : Bool
  write_buffer : List (String × List DataRow)
  buffer_timestamps : List (String × Nat)
  BUFFER_TTL : Nat
  embedding_cache : EmbeddingCache
  storage : List DataRow
deriving DecidableEq, Repr

/-- The buffered-record list for a session.  The code's guard
`session_id not in self.write_buffer or not self.write_buffer[session_id]`
is exactly `bufferOf s session_id = []`. -/
def bufferOf (s : ChatPersistence) (sid : String) : List DataRow :=
  (alookup s.write_buffer sid).getD []

/-- `flush_session`: returns the new state and the boolean result.  `loadOk`
is whether `self.client.load_collection(...)` would succeed if invoked (it
is invoked only when `collection_loaded` is false); `insertOk` is whether
`self.client.insert(...)` would succeed.  An exception from either is caught
by the `except` and reported as `False`, with the buffer and timestamp left
untouched. -/
def flush_session (s : ChatPersistence) (session_id : String)
    (loadOk insertOk : Bool) : ChatPersistence × Bool :=
  if s.client = false then (s, false)
  else if bufferOf s session_id = [] then (s, true)
  else if s.collection_loaded = false ∧ loadOk = false then (s, false)
  else
    let s1 := { s with collection_loaded := true }
    if insertOk then
      ({ s1 with
          storage := s1.storage ++ bufferOf s session_id,
          write_buffer := aerase s1.write_buffer session_id,
          buffer_timestamps := aerase s1.buffer_timestamps session_id }, true)
    else (s1, false)

/-- `s[:n]` on a Python string: the first `n` characters. -/
def strTrunc (s : String) (n : Nat) : String := String.mk (s.toList.take n)

/-- The `data_row` dict built in `store_conversation`, with every text field
truncated to its schema limit (`[:255]`, `[:2000]`, `[:100]`). -/
def mkDataRow (user_name user_id session_id user_message bot_response
    intent nowIso : String) (embedding : List Int) : DataRow :=
  { user_name := strTrunc user_name 255
    user_id := strTrunc user_id 255
    session_id := strTrunc session_id 255
    timestamp := nowIso
    user_message := strTrunc user_message 2000
    bot_response := strTrunc bot_response 2000
    embedding := embedding
    intent := strTrunc intent 100 }

/-- `f"{user_message} {bot_response}"`. -/
def combinedText (user_message bot_response : String) : String :=
  user_message ++ " " ++ bot_response

/-- The embedding-cache step of `store_conversation`: try the cache, on a
miss call `self.embedding_model.encode(...)` (the opaque total function
`encode`) and cache the result. -/
def cachedEmbedding (c : EmbeddingCache) (text : String)
    (encode : String → List Int) : List Int × EmbeddingCache :=
  match c.get text with
  | (some e, c1) => (e, c1)
  | (none, c1) => (encode text, c1.set text (encode text))

/-- Step 2 of `store_conversation`: `if session_id not in self.write_buffer:`
create the session's empty list and record `time.time()` as its creation
timestamp. -/
def ensureBuffer (s : ChatPersistence) (session_id : String) (now : Nat) :
    ChatPersistence :=
  match alookup s.write_buffer session_id with
  | none =>
      { s with
          write_buffer := ainsert s.write_buffer session_id [],
          buffer_timestamps := ainsert s.buffer_timestamps session_id now }
  | some _ => s

/-- Step 3 of `store_conversation`: `self.write_buffer[session_id].append(data_row)`. -/
def appendRow (s : ChatPersistence) (session_id : String) (row : DataRow) :
    ChatPersistence :=
  { s with
      write_buffer := ainsert s.write_buffer session_id
        (bufferOf s session_id ++ [row]) }

/-- Steps 1–3 of `store_conversation` (run when `self.client` is present):
compute/reuse the embedding, build the truncated `data_row`, create the
session's buffer list and timestamp if absent, and append the row.
`now` is `time.time()`, `nowIso` is `datetime.now().isoformat()`. -/
def storeBuffered (s : ChatPersistence)
    (user_name user_id session_id user_message bot_response intent : String)
    (encode : String → List Int) (now : Nat) (nowIso : String) :
    ChatPersistence :=
  appendRow
    (ensureBuffer
      { s with
          embedding_cache := (cachedEmbedding s.embedding_cache
            (combinedText user_message bot_response) encode).2 }
      session_id now)
    session_id
    (mkDataRow user_name user_id session_id user_message bot_response intent
      nowIso
      (cachedEmbedding s.embedding_cache
        (combinedText user_message bot_response) encode).1)

/-- `store_conversation`: buffer the row, then flush synchronously if the
session's buffer reached `BATCH_SIZE`.  (The `except` branch for a raising
embedding model is not modelled: `encode` is total.) -/
def store_conversation (s : ChatPersistence)
    (user_name user_id session_id user_message bot_response intent : String)
    (encode : String → List Int) (now : Nat) (nowIso : String)
    (loadOk insertOk : Bool) : ChatPersistence × Bool :=
  if s.client = false then (s, false)
  else if BATCH_SIZE ≤
      (bufferOf (storeBuffered s user_name user_id session_id user_message
        bot_response intent encode now nowIso) session_id).length then
    flush_session (storeBuffered s user_name user_id session_id user_message
      bot_response intent encode now nowIso) session_id loadOk insertOk
  else
    (storeBuffered s user_name user_id session_id user_message bot_response
      intent encode now nowIso, true)

/-- One iteration of the cleanup loop in `cleanup_stale_buffers`: try to
flush the stale session; if the flush fails, forcefully pop its buffer and
timestamp. -/
def sweepOne (s : ChatPersistence) (sid : String) (loadOk insertOk : Bool) :
    ChatPersistence :=
  let r := flush_session s sid loadOk insertOk
  if r.2 then r.1
  else
    { r.1 with
        write_buffer := aerase r.1.write_buffer sid,
        buffer_timestamps := aerase r.1.buffer_timestamps sid }

/-- The loop over `stale_sessions` in `cleanup_stale_buffers`.  The flush
oracles may differ per session. -/
def cleanupPass (loadOk insertOk : String → Bool) :
    List String → ChatPersistence → ChatPersistence
  | [], s => s
  | sid :: rest, s =>
      cleanupPass loadOk insertOk rest (sweepOne s sid (loadOk sid) (insertOk sid))

/-- The `stale_sessions` list: sessions whose buffer timestamp satisfies
`current_time - timestamp > self.BUFFER_TTL`. -/
def staleSessions (s : ChatPersistence) (now : Nat) : List String :=
  (s.buffer_timestamps.filter
    (fun p => decide (s.BUFFER_TTL < now - p.2))).map Prod.fst

/-- `cleanup_stale_buffers`. -/
def cleanup_stale_buffers (s : ChatPersistence) (now : Nat)
    (loadOk insertOk : String → Bool) : ChatPersistence :=
  if s.buffer_timestamps.isEmpty then s
  else cleanupPass loadOk insertOk (staleSessions s now) s

theorem flush_session_buffers_shape (s : ChatPersistence) (sid : String)
    (loadOk insertOk : Bool) :
    ((flush_session s sid loadOk insertOk).1.write_buffer = s.write_buffer ∧
      (flush_session s sid loadOk insertOk).1.buffer_timestamps =
        s.buffer_timestamps) ∨
    ((flush_session s sid loadOk insertOk).1.write_buffer =
        aerase s.write_buffer sid ∧
      (flush_session s sid loadOk insertOk).1.buffer_timestamps =
        aerase s.buffer_timestamps sid) := by
  unfold flush_session
  by_cases hc : s.client = false
  · left; simp [hc]
  · by_cases hb : bufferOf s sid = []
    · left; simp [hc, hb]
    · by_cases hl : s.collection_loaded = false ∧ loadOk = false
      · left; simp [hc, hb, hl]
      · by_cases hi : insertOk = true
        · right; simp [hc, hb, hl, hi]
        · left; simp [hc, hb, hl, hi]

theorem flush_session_true_nonempty (s : ChatPersistence) (sid : String)
    (loadOk insertOk : Bool) (hne : bufferOf s sid ≠ [])
    (hok : (flush_session s sid loadOk insertOk).2 = true) :
    alookup (flush_session s sid loadOk insertOk).1.write_buffer sid = none ∧
    alookup (flush_session s sid loadOk insertOk).1.buffer_timestamps sid =
      none := by
  unfold flush_session at hok ⊢
  by_cases hc : s.client = false
  · simp [hc] at hok
  · by_cases hl : s.collection_loaded = false ∧ loadOk = false
    · simp [hc, hne, hl] at hok
    · by_cases hi : insertOk = true
      · simp [hc, hne, hl, hi, alookup_aerase_self]
      · simp [hc, hne, hl, hi] at hok

/-- **C3 (amended).** After any `store_conversation` call that *returns
success*, the session's in-memory buffered-record list has length strictly
below `BATCH_SIZE = 5`: reaching the threshold triggers a synchronous flush,
and a successful flush clears the list within the same call.  (The claim as
stated fails exactly when the triggered flush's durable write fails: then
the buffer is deliberately left at the threshold for a later retry and the
call returns failure.) -/
theorem record_batch_invariant (s : ChatPersistence)
    (user_name user_id session_id user_message bot_response intent : String)
    (encode : String → List Int) (now : Nat) (nowIso : String)
    (loadOk insertOk : Bool)
    (hok : (store_conversation s user_name user_id session_id user_message
      bot_response intent encode now nowIso loadOk insertOk).2 = true) :
    (bufferOf (store_conversation s user_name user_id session_id user_message
      bot_response intent encode now nowIso loadOk insertOk).1
        session_id).length < BATCH_SIZE := by
  unfold store_conversation at hok ⊢
  by_cases hc : s.client = false
  · rw [if_pos hc] at hok
    exact absurd hok (by simp)
  · rw [if_neg hc] at hok ⊢
    by_cases hbatch : BATCH_SIZE ≤
        (bufferOf (storeBuffered s user_name user_id session_id user_message
          bot_response intent encode now nowIso) session_id).length
    · rw [if_pos hbatch] at hok ⊢
      have hne : bufferOf (storeBuffered s user_name user_id session_id
          user_message bot_response intent encode now nowIso) session_id ≠ [] := by
        intro h0
        rw [h0] at hbatch
        simp [BATCH_SIZE] at hbatch
      have hnone := (flush_session_true_nonempty _ _ loadOk insertOk hne hok).1
      unfold bufferOf
      rw [hnone]
      simp [BATCH_SIZE]
    · rw [if_neg hbatch] at hok ⊢
      exact Nat.lt_of_not_le hbatch

/-- A fresh persistence state with a live client (used by several witnesses). -/
def emptyClientState : ChatPersistence :=
  { client := true, collection_loaded := true, write_buffer := [],
    buffer_timestamps := [], BUFFER_TTL := 300,
    embedding_cache := EmbeddingCache.empty 1000, storage := [] }

/-- Witness for the amended C3: recording one turn into a fresh state
succeeds and leaves 1 < 5 buffered records. -/
theorem record_batch_invariant_witness :
    (bufferOf (store_conversation emptyClientState "alice" "u1" "sess" "hi"
      "hello" "general" (fun _ => [7]) 10 "t1" true true).1 "sess").length <
      BATCH_SIZE :=
  record_batch_invariant emptyClientState "alice" "u1" "sess" "hi" "hello"
    "general" (fun _ => [7]) 10 "t1" true true (by decide)

/-- A durable row as built by `store_conversation` (shared by concrete
states below). -/
def row0 : DataRow :=
  mkDataRow "alice" "u1" "sess" "hi" "hello" "general" "t0" [7]

/-- A state whose session `"sess"` already holds `BATCH_SIZE - 1 = 4`
buffered records. -/
def fourRowState : ChatPersistence :=
  { client := true, collection_loaded := true,
    write_buffer := [("sess", [row0, row0, row0, row0])],
    buffer_timestamps := [("sess", 10)], BUFFER_TTL := 300,
    embedding_cache := EmbeddingCache.empty 1000, storage := [] }

/-- **C3 counterexample.** With 4 records buffered, a fifth `record` call
reaches the threshold and triggers the synchronous flush; when the durable
batch write fails, the call returns with the buffer still holding
`BATCH_SIZE = 5` records — not strictly fewer, contradicting the claimed
invariant "< BATCH_SIZE after any record call returns". -/
theorem record_batch_counterexample :
    (bufferOf (store_conversation fourRowState "alice" "u1" "sess" "hi"
      "hello" "general" (fun _ => [7]) 11 "t1" true false).1 "sess").length =
      BATCH_SIZE := by
  decide

/-- **C4 (amended).** Flushing a session whose buffer is absent or empty:
when the durable-storage client is available the call succeeds trivially and
changes no state; when the client is unavailable it still changes no state
but reports *failure* (`return False` is the first line of
`flush_session`).  The claim's "always succeeds ... in every configuration
including when the durable-storage client is unavailable" is exactly what
fails. -/
theorem flush_empty_noop (s : ChatPersistence) (sid : String)
    (loadOk insertOk : Bool) (hb : bufferOf s sid = []) :
    (s.client = true → flush_session s sid loadOk insertOk = (s, true)) ∧
    (s.client = false → flush_session s sid loadOk insertOk = (s, false)) := by
  constructor
  · intro hc
    unfold flush_session
    rw [if_neg (by simp [hc]), if_pos hb]
  · intro hc
    unfold flush_session
    rw [if_pos hc]

/-- Witness for the amended C4: with a live client and no buffer for the
session, flush succeeds and returns the state unchanged. -/
theorem flush_empty_noop_witness :
    flush_session emptyClientState "sess" true false =
      (emptyClientState, true) :=
  (flush_empty_noop emptyClientState "sess" true false rfl).1 rfl

/-- The same state with the durable-storage client unavailable
(`self.client = None` after a failed init). -/
def noClientState : ChatPersistence :=
  { client := false, collection_loaded := false, write_buffer := [],
    buffer_timestamps := [], BUFFER_TTL := 300,
    embedding_cache := EmbeddingCache.empty 1000, storage := [] }

/-- **C4 counterexample.** With the durable-storage client unavailable,
`flush_session` on a session with an absent buffer returns `False` — a
failure result, not success — refuting "always succeeds ... in every
configuration including when the durable-storage client is unavailable". -/
theorem flush_empty_no_client_counterexample :
    flush_session noClientState "sess" true true = (noClientState, false) :=
  rfl

/-- **C5.** If a session's buffer is non-empty and the batch write to
durable storage fails during `flush_session` (the insert — or the
collection load before it — raises), then the call reports failure and the
whole `write_buffer` and `buffer_timestamps` maps are unchanged: the
session's buffered list and its creation timestamp survive for a later
retry, and nothing was written to durable storage. -/
theorem flush_failure_retains_buffer (s : ChatPersistence) (sid : String)
    (loadOk : Bool) (hc : s.client = true) (hne : bufferOf s sid ≠ []) :
    (flush_session s sid loadOk false).2 = false ∧
    (flush_session s sid loadOk false).1.write_buffer = s.write_buffer ∧
    (flush_session s sid loadOk false).1.buffer_timestamps =
      s.buffer_timestamps ∧
    bufferOf (flush_session s sid loadOk false).1 sid = bufferOf s sid ∧
    alookup (flush_session s sid loadOk false).1.buffer_timestamps sid =
      alookup s.buffer_timestamps sid ∧
    (flush_session s sid loadOk false).1.storage = s.storage := by
  have hcc : ¬ s.client = false := by simp [hc]
  have hne2 : ¬ (alookup s.write_buffer sid).getD [] = [] := hne
  by_cases hl : s.collection_loaded = false ∧ loadOk = false
  · simp [flush_session, hcc, hne2, hl, bufferOf]
  · simp [flush_session, hcc, hne2, hl, bufferOf]

/-- A state with one buffered record for session `"sess"`. -/
def oneRowState : ChatPersistence :=
  { client := true, collection_loaded := true,
    write_buffer := [("sess", [row0])], buffer_timestamps := [("sess", 10)],
    BUFFER_TTL := 300, embedding_cache := EmbeddingCache.empty 1000,
    storage := [] }

/-- Witness for C5: a concrete failed flush reports failure and leaves the
buffered record and timestamp in place. -/
theorem flush_failure_retains_buffer_witness :
    (flush_session oneRowState "sess" true false).2 = false ∧
    (flush_session oneRowState "sess" true false).1.write_buffer =
      [("sess", [row0])] := by
  have h := flush_failure_retains_buffer oneRowState "sess" true rfl
    (by decide)
  exact ⟨h.1, h.2.1⟩

theorem sweepOne_other (s : ChatPersistence) (x sid : String)
    (loadOk insertOk : Bool) (hx : x ≠ sid) :
    alookup (sweepOne s x loadOk insertOk).write_buffer sid =
      alookup s.write_buffer sid ∧
    alookup (sweepOne s x loadOk insertOk).buffer_timestamps sid =
      alookup s.buffer_timestamps sid := by
  unfold sweepOne
  rcases flush_session_buffers_shape s x loadOk insertOk with
    ⟨hwb, hts⟩ | ⟨hwb, hts⟩ <;>
    by_cases hr : (flush_session s x loadOk insertOk).2 = true
  · simp [hr, hwb, hts]
  · simp [hr, hwb, hts, alookup_aerase_ne _ x sid hx]
  · simp [hr, hwb, hts, alookup_aerase_ne _ x sid hx]
  · simp [hr, hwb, hts, alookup_aerase_ne _ x sid hx]

theorem sweepOne_done (s : ChatPersistence) (x sid : String)
    (loadOk insertOk : Bool)
    (hwb0 : alookup s.write_buffer sid = none)
    (hts0 : alookup s.buffer_timestamps sid = none) :
    alookup (sweepOne s x loadOk insertOk).write_buffer sid = none ∧
    alookup (sweepOne s x loadOk insertOk).buffer_timestamps sid = none := by
  unfold sweepOne
  rcases flush_session_buffers_shape s x loadOk insertOk with
    ⟨hwb, hts⟩ | ⟨hwb, hts⟩ <;>
    by_cases hr : (flush_session s x loadOk insertOk).2 = true <;>
    simp [hr, hwb, hts, alookup_aerase_none _ x sid, hwb0, hts0]

theorem sweepOne_self (s : ChatPersistence) (sid : String)
    (loadOk insertOk : Bool) (hne : bufferOf s sid ≠ []) :
    alookup (sweepOne s sid loadOk insertOk).write_buffer sid = none ∧
    alookup (sweepOne s sid loadOk insertOk).buffer_timestamps sid = none := by
  unfold sweepOne
  by_cases hr : (flush_session s sid loadOk insertOk).2 = true
  · have := flush_session_true_nonempty s sid loadOk insertOk hne hr
    simp [hr, this.1, this.2]
  · simp [hr, alookup_aerase_self]

theorem cleanupPass_preserves_done (loadOk insertOk : String → Bool)
    (l : List String) (sid : String) :
    ∀ s : ChatPersistence,
      alookup s.write_buffer sid = none →
      alookup s.buffer_timestamps sid = none →
      alookup (cleanupPass loadOk insertOk l s).write_buffer sid = none ∧
      alookup (cleanupPass loadOk insertOk l s).buffer_timestamps sid =
        none := by
  induction l with
  | nil => intro s hwb hts; exact ⟨hwb, hts⟩
  | cons x rest ih =>
      intro s hwb hts
      have h := sweepOne_done s x sid (loadOk x) (insertOk x) hwb hts
      exact ih _ h.1 h.2

theorem cleanupPass_reaches (loadOk insertOk : String → Bool)
    (l : List String) (sid : String) :
    ∀ s : ChatPersistence, sid ∈ l → bufferOf s sid ≠ [] →
      alookup (cleanupPass loadOk insertOk l s).write_buffer sid = none ∧
      alookup (cleanupPass loadOk insertOk l s).buffer_timestamps sid =
        none := by
  induction l with
  | nil => intro s hmem; simp at hmem
  | cons x rest ih =>
      intro s hmem hne
      by_cases hx : x = sid
      · rw [hx]
        have h := sweepOne_self s sid (loadOk sid) (insertOk sid) hne
        exact cleanupPass_preserves_done loadOk insertOk rest sid _ h.1 h.2
      · have hmem2 : sid ∈ rest := by
          rcases List.mem_cons.mp hmem with h | h
          · exact absurd h.symm hx
          · exact h
        have hkeep := sweepOne_other s x sid (loadOk x) (insertOk x) hx
        have hne2 : bufferOf (sweepOne s x (loadOk x) (insertOk x)) sid ≠ [] := by
          unfold bufferOf
          rw [hkeep.1]
          exact hne
        exact ih _ hmem2 hne2

/-- **C9 (amended).** For every session key that holds a non-empty buffer
whose creation timestamp is older than `BUFFER_TTL` when the periodic sweep
runs, the sweep attempts a flush of that session, and after the sweep
completes the session's buffered list and timestamp are gone in *every*
outcome: a successful flush clears them, while even a *single* failed flush
causes the sweep to forcefully discard them at once (the code removes the
buffer on the first failure to prevent a retry loop, not after repeated
failures).  In particular no over-TTL session remains buffered. -/
theorem cleanup_removes_overdue (s : ChatPersistence) (now : Nat)
    (loadOk insertOk : String → Bool) (sid : String) (ts : Nat)
    (hts : alookup s.buffer_timestamps sid = some ts)
    (hstale : s.BUFFER_TTL < now - ts) (hne : bufferOf s sid ≠ []) :
    alookup (cleanup_stale_buffers s now loadOk insertOk).write_buffer sid =
      none ∧
    alookup (cleanup_stale_buffers s now loadOk insertOk).buffer_timestamps
      sid = none := by
  have hmem : (sid, ts) ∈ s.buffer_timestamps := alookup_mem _ _ _ hts
  have hmem2 : sid ∈ staleSessions s now := by
    unfold staleSessions
    rw [List.mem_map]
    exact ⟨(sid, ts), List.mem_filter.mpr ⟨hmem, by simpa using hstale⟩, rfl⟩
  have hnonempty : ¬ s.buffer_timestamps.isEmpty = true := by
    cases hl : s.buffer_timestamps with
    | nil => rw [hl] at hmem; simp at hmem
    | cons p rest => simp [List.isEmpty]
  unfold cleanup_stale_buffers
  rw [if_neg hnonempty]
  exact cleanupPass_reaches loadOk insertOk (staleSessions s now) sid s
    hmem2 hne

/-- **C9 counterexample.** A single stale session whose flush fails once: the
sweep immediately and forcefully removes its buffered list and timestamp
(third conjunct: that one flush indeed failed), refuting "removed only after
repeated flush failures (a single failed flush leaves the buffer intact for
retry)". -/
theorem cleanup_single_failure_discards :
    alookup (cleanup_stale_buffers oneRowState 1000 (fun _ => true)
      (fun _ => false)).write_buffer "sess" = none ∧
    alookup (cleanup_stale_buffers oneRowState 1000 (fun _ => true)
      (fun _ => false)).buffer_timestamps "sess" = none ∧
    (flush_session oneRowState "sess" true false).2 = false := by
  decide

/-- Witness for the amended C9, at the same concrete stale state, obtained
from the general theorem. -/
theorem cleanup_removes_overdue_witness :
    alookup (cleanup_stale_buffers oneRowState 700 (fun _ => true)
      (fun _ => true)).write_buffer "sess" = none :=
  (cleanup_removes_overdue oneRowState 700 (fun _ => true) (fun _ => true)
    "sess" 10 rfl (by decide) (by decide)).1

theorem strTrunc_length_le (s : String) (n : Nat) :
    (strTrunc s n).length ≤ n := by
  show (s.toList.take n).length ≤ n
  simp [List.length_take]

theorem strTrunc_of_short (s : String) (n : Nat) (h : s.length ≤ n) :
    strTrunc s n = s := by
  show String.mk (s.data.take n) = s
  rw [List.take_of_length_le (h : s.data.length ≤ n)]

theorem ensureBuffer_bufferOf (s : ChatPersistence) (sid : String) (now : Nat) :
    bufferOf (ensureBuffer s sid now) sid = bufferOf s sid := by
  unfold ensureBuffer bufferOf
  cases hb : alookup s.write_buffer sid with
  | none => simp [alookup_ainsert_self, hb]
  | some l => simp [hb]

/-- **C10.** Every `data_row` placed in the write buffer by
`store_conversation` has its text fields truncated to the schema bounds
before buffering: the buffering step appends exactly `mkDataRow ...` to the
session's list, and for every embedding value the row built by `mkDataRow`
carries `user_message`/`bot_response` cut to at most 2000 characters,
`user_name`/`user_id`/`session_id` to at most 255, and `intent` to at most
100 — each equal to the Python slice `[:n]` of its input, and left intact
when already within bounds.  Over-long inputs are therefore buffered in
truncated form rather than rejected. -/
theorem buffered_row_truncated (s : ChatPersistence)
    (user_name user_id session_id user_message bot_response intent : String)
    (encode : String → List Int) (now : Nat) (nowIso : String) :
    alookup (storeBuffered s user_name user_id session_id user_message
        bot_response intent encode now nowIso).write_buffer session_id =
      some (bufferOf s session_id ++
        [mkDataRow user_name user_id session_id user_message bot_response
          intent nowIso
          (cachedEmbedding s.embedding_cache
            (combinedText user_message bot_response) encode).1]) ∧
    ∀ e : List Int,
      (mkDataRow user_name user_id session_id user_message bot_response
        intent nowIso e).user_message = strTrunc user_message 2000 ∧
      (mkDataRow user_name user_id session_id user_message bot_response
        intent nowIso e).user_message.length ≤ 2000 ∧
      (mkDataRow user_name user_id session_id user_message bot_response
        intent nowIso e).bot_response.length ≤ 2000 ∧
      (mkDataRow user_name user_id session_id user_message bot_response
        intent nowIso e).user_name.length ≤ 255 ∧
      (mkDataRow user_name user_id session_id user_message bot_response
        intent nowIso e).user_id.length ≤ 255 ∧
      (mkDataRow user_name user_id session_id user_message bot_response
        intent nowIso e).session_id.length ≤ 255 ∧
      (mkDataRow user_name user_id session_id user_message bot_response
        intent nowIso e).intent.length ≤ 100 ∧
      (user_message.length ≤ 2000 →
        (mkDataRow user_name user_id session_id user_message bot_response
          intent nowIso e).user_message = user_message) := by
  constructor
  · unfold storeBuffered appendRow
    rw [alookup_ainsert_self]
    rw [ensureBuffer_bufferOf]
    rfl
  · intro e
    refine ⟨rfl, strTrunc_length_le _ _, strTrunc_length_le _ _,
      strTrunc_length_le _ _, strTrunc_length_le _ _, strTrunc_length_le _ _,
      strTrunc_length_le _ _, ?_⟩
    intro h
    exact strTrunc_of_short _ _ h

/-- Witness instantiating C10 at concrete inputs: a short message is
buffered verbatim. -/
theorem buffered_row_truncated_witness :
    (mkDataRow "alice" "u1" "sess" "hi" "hello" "general" "t1"
      [7]).user_message = "hi" := by
  have h := buffered_row_truncated emptyClientState "alice" "u1" "sess" "hi"
    "hello" "general" (fun _ => [7]) 10 "t1"
  exact ((h.2 [7]).2.2.2.2.2.2.2) (by decide)

/-! ## `UserStatsCache` (`app/cache.py`) -/

/-- Modelled from the spec: `cachetools.TTLCache`, the external library class
backing `UserStatsCache` (`self._cache = TTLCache(maxsize=max_size,
ttl=ttl_seconds)`); its source is a third-party dependency, not part of this
repository.  Per the spec, an "entry self-expires after a fixed time window
regardless of access": an entry stores its expiry instant `setTime + ttl`,
`set` records it, and `get` is read-only — an access neither refreshes nor
removes entries — returning the value only at instants strictly before
expiry.  The cached stats value is opaque (`α`). -/
structure TTLCache (α : Type) where
  ttl : Nat
  entries : List (String × (α × Nat))

/-- Modelled from the spec: `TTLCache` lookup at instant `now`. -/
def TTLCache.get {α : Type} (c : TTLCache α) (now : Nat) (k : String) :
    Option α :=
  match alookup c.entries k with
  | some (v, expiry) => if now < expiry then some v else none
  | none => none

/-- Modelled from the spec: `TTLCache` insertion at instant `now`. -/
def TTLCache.set {α : Type} (c : TTLCache α) (now : Nat) (k : String)
    (v : α) : TTLCache α :=
  { c with entries := ainsert c.entries k (v, now + c.ttl) }

/-- `UserStatsCache` (`app/cache.py`): a lock-guarded wrapper whose `get` and
`set` delegate directly to the TTL cache. -/
structure UserStatsCache (α : Type) where
  statsCache : TTLCache α

/-- `UserStatsCache.get`. -/
def UserStatsCache.get {α : Type} (c : UserStatsCache α) (now : Nat)
    (user_name : String) : Option α :=
  c.statsCache.get now user_name

/-- `UserStatsCache.set`. -/
def UserStatsCache.set {α : Type} (c : UserStatsCache α) (now : Nat)
    (user_name : String) (stats : α) : UserStatsCache α :=
  ⟨c.statsCache.set now user_name stats⟩

/-- **C8.** A stats-cache entry set for key `k` at time `t` with
time-to-live `d = ttl` is returned by a `get` of `k` at any time strictly
before `t + d`, and a `get` of `k` at any time at or after `t + d` returns
`none` — in a single boundary statement: the result is `some v` exactly when
`now < t + d`.  `get` does not mutate the cache in this model, so the
boundary is independent of intervening accesses. -/
theorem stats_cache_ttl_boundary {α : Type} (c : UserStatsCache α)
    (t now : Nat) (k : String) (v : α) :
    (c.set t k v).get now k =
      if now < t + c.statsCache.ttl then some v else none := by
  unfold UserStatsCache.get UserStatsCache.set TTLCache.get TTLCache.set
  rw [alookup_ainsert_self]

end AIChat
